import Mathlib

/-!
Shallow embedding of `scrape_kmt.py`, a paginated reaction-data scraper with
a cached name-resolution chain.  Pure string manipulation is translated
directly; HTTP fetches and the external HTML parser (BeautifulSoup) are
modelled as oracle functions supplying the observable content of each
response, and the module-level `name_cache` dict is threaded explicitly as a
state value.  Each definition mirrors the Python function of the same name.
-/

/-- Python `needle in hay` substring test (on character lists). -/
def containsAux (needle : List Char) : List Char → Bool
  | [] => needle.isPrefixOf []
  | c :: rest => needle.isPrefixOf (c :: rest) || containsAux needle rest

/-- Python `needle in hay` substring test on strings. -/
def containsSub (hay needle : String) : Bool :=
  containsAux needle.data hay.data

/-- Python `s.split(sep)` for a single-character separator, on character
lists: splitting at every occurrence, keeping empty pieces, `[[]]` for the
empty input. -/
def splitOnChar (sep : Char) : List Char → List (List Char)
  | [] => [[]]
  | c :: rest =>
    let r := splitOnChar sep rest
    if c = sep then [] :: r
    else
      match r with
      | h :: t => (c :: h) :: t
      | [] => [[c]]

/-- Python `s.split(sep)` for a single-character separator, on strings. -/
def pySplit (sep : Char) (s : String) : List String :=
  (splitOnChar sep s.data).map (fun l => ⟨l⟩)

/-- Python `s.strip()`: whitespace removed from both ends. -/
def pyStrip (s : String) : String :=
  ⟨((s.data.dropWhile Char.isWhitespace).reverse.dropWhile Char.isWhitespace).reverse⟩

/-- Python `s.lower()` on ASCII input. -/
def lowerStr (s : String) : String :=
  ⟨s.data.map Char.toLower⟩

/-- Python `s.startswith(pre)`. -/
def pyStartsWith (s pre : String) : Bool :=
  pre.data.isPrefixOf s.data

/-- Lexicographic code-point comparison (Python `s <= t` on strings), on
character lists. -/
def strLeAux : List Char → List Char → Bool
  | [], _ => true
  | _ :: _, [] => false
  | a :: as, b :: bs => if a = b then strLeAux as bs else decide (a.toNat < b.toNat)

/-- Lexicographic code-point comparison on strings. -/
def strLe (s t : String) : Bool :=
  strLeAux s.data t.data

/-- Python `s.replace(c, "")` for a single-character pattern: removing every
occurrence of the character. -/
def removeChar (c : Char) (s : String) : String :=
  ⟨s.data.filter (fun a => a ≠ c)⟩

/-- `_norm_smiles` (line 39): `s.replace("\\", "").replace("/", "")`, i.e.
first strip every backslash, then every forward slash. -/
def _norm_smiles (s : String) : String :=
  removeChar '/' (removeChar '\\' s)

/-- Net effect of the `while len(parts) < 3: parts.append("")` padding loop
in `parse_reaction_string` (lines 154-155). -/
def pad3 (l : List String) : List String :=
  match l with
  | [] => ["", "", ""]
  | [a] => [a, "", ""]
  | [a, b] => [a, b, ""]
  | l => l

/-- One field of a reaction string: `[p.strip() for p in f.split(".") if p.strip()]`. -/
def splitField (f : String) : List String :=
  ((pySplit '.' f).map pyStrip).filter (fun p => p ≠ "")

/-- Result dictionary of `parse_reaction_string` (the transient `page_url`
key added later by `scrape_all` to its local `item` dict is not part of this
parse result and is never emitted). -/
structure ParsedReaction where
  smiles : String
  reactant_smiles : List String
  solvents : List String
  product_smiles : List String
deriving DecidableEq

/-- `parse_reaction_string` (lines 152-164): split on `>`, pad to three
fields, then split each field on `.` into stripped non-empty tokens. -/
def parse_reaction_string (s : String) : ParsedReaction :=
  let parts := pad3 (pySplit '>' s)
  { smiles := s
    reactant_smiles := splitField (parts.getD 0 "")
    solvents := splitField (parts.getD 1 "")
    product_smiles := splitField (parts.getD 2 "") }

/-- `PREFERRED_SOLVENTS` (lines 16-25), in source order. -/
def PREFERRED_SOLVENTS : List (String × String) :=
  [("ClCCl", "dichloromethane"),
   ("CO[H]", "methanol"),
   ("C1CCCO1", "tetrahydrofuran"),
   ("CC(=O)C", "acetone"),
   ("CC#N", "acetonitrile"),
   ("CCOCC", "diethyl ether"),
   ("C1(=CC=CC=C1)C", "toluene"),
   ("O", "water")]

/-- `KNOWN_COMPOUND_NAMES` (lines 30-37), in source (insertion) order.  The
Python literals are raw strings in which `\\` denotes two consecutive
backslash characters; the Lean literals reproduce those characters. -/
def KNOWN_COMPOUND_NAMES : List (String × String) :=
  [("C(C)(=O)OC\\\\C=C(/C)\\\\CC\\\\C=C(/C)\\\\CCC=C(C)C",
    "(2E,6E)-Farnesyl Acetate"),
   ("C(C)(=O)OC\\\\C=C(\\\\CC\\\\C=C(\\\\CC\\\\C=C(\\\\C=O)/C)/C)/C",
    "(2E,6E,10E)-12-oxo-3,7,11-trimethyldodeca-2,6,10-trien-1-yl acetate"),
   ("C(C)(=O)OC\\\\C=C(\\\\CC\\\\C=C(\\\\CC\\\\C=C(\\\\CO)/C)/C)/C",
    "(2E,6E,10E)-12-Hydroxy-3,7,11-trimethyldodeca-2,6,10-trien-1-yl acetate"),
   ("C(C)(=O)OC\\\\C=C(\\\\CC\\\\C=C(\\\\CCC1OC1(C)CO)/C)/C",
    "(2E,6E)-9-(3-(Hydroxymethyl)-3-methyloxiran-2-yl)-3,7-dimethylnona-2,6-dien-1-yl acetate"),
   ("C(C1=CC=CC=C1)(=O)OC[C@@]1(O[C@H]1CC\\\\C(=C\\\\CC\\\\C(=C\\\\COC(C)=O)\\\\C)\\\\C)C",
    "((2S,3S)-3-((3E,7E)-9-Acetoxy-3,7-dimethylnona-3,7-dien-1-yl)-2-methyloxiran-2-yl)methyl benzoate")]

/-- The module-level `name_cache` dict, as an association list from cache key
to cached value.  A stored `none` is the explicit "known absent" marker
(`name_cache[key] = None`), distinct from the key not being present. -/
abbrev Cache := List (String × Option String)

/-- Python `key in name_cache` / `name_cache[key]`: `some v` when the key is
present with value `v`, `none` when the key is absent. -/
def cacheFind : Cache → String → Option (Option String)
  | [], _ => none
  | (k, v) :: rest, key => if k = key then some v else cacheFind rest key

/-- Observable outcome of the PubChem property request (lines 197-210): an
exception anywhere in the request/JSON handling, or a response with a status
code and the `PropertyTable.Properties` array, each element carrying its
optional `IUPACName` field. -/
inductive PropResp where
  | exn
  | resp (status : Nat) (props : List (Option String))

/-- Observable outcome of the PubChem synonyms request (lines 212-222): an
exception, or a response with a status code and the
`InformationList.Information` array, each element carrying its `Synonym`
list. -/
inductive SynResp where
  | exn
  | resp (status : Nat) (info : List (List String))

/-- Observable outcome of the CACTUS request (lines 252-263): an exception,
or a response with a status code and body text. -/
inductive CacResp where
  | exn
  | resp (status : Nat) (text : String)

/-- The remote lookup services, as oracles from the queried structure string
to the response observed for it. -/
structure RemoteServices where
  property : String → PropResp
  synonyms : String → SynResp
  cactus : String → CacResp

/-- Python `re.fullmatch(r"\d{2,7}-\d{2}-\d", s)` (line 229): the whole
string is 2-7 digits, a hyphen, 2 digits, a hyphen, and one digit. -/
def casMatch (s : String) : Bool :=
  match pySplit '-' s with
  | [a, b, c] =>
    2 ≤ a.length && a.length ≤ 7 && a.data.all Char.isDigit &&
    b.length = 2 && b.data.all Char.isDigit &&
    c.length = 1 && c.data.all Char.isDigit
  | _ => false

/-- The synonym-selection loop of `resolve_name_with_pubchem`
(lines 223-232): skip falsy (empty) synonyms, synonyms whose lowercase form
starts with "cid", and synonyms that fully match the CAS-number pattern;
return the first survivor. -/
def pickSynonym : List String → Option String
  | [] => none
  | s :: rest =>
    if s = "" then pickSynonym rest
    else if pyStartsWith (lowerStr s) "cid" then pickSynonym rest
    else if casMatch s then pickSynonym rest
    else some s

/-- Name extraction from the property response (lines 203-210): on HTTP 200,
take `Properties[0].IUPACName` when the array is non-empty and the name is
truthy (present and non-empty); otherwise nothing. -/
def propName (status : Nat) (props : List (Option String)) : Option String :=
  if status = 200 then
    match props with
    | (some nm) :: _ => if nm ≠ "" then some nm else none
    | _ => none
  else none

/-- The remote portion of `resolve_name_with_pubchem` (lines 196-234), as a
pure function of the oracle: property lookup first; on an exception the
`except: pass` skips straight to the negative-cache line; otherwise fall back
to the synonyms lookup, whose candidate list is `Information[0].Synonym` when
the status is 200 and the array is non-empty, else empty. -/
def pubchemSession (w : RemoteServices) (smiles : String) : Option String :=
  match w.property smiles with
  | PropResp.exn => none
  | PropResp.resp st props =>
    match propName st props with
    | some nm => some nm
    | none =>
      match w.synonyms smiles with
      | SynResp.exn => none
      | SynResp.resp st2 info =>
        pickSynonym (if st2 = 200 then info.headD [] else [])

/-- `resolve_name_with_pubchem` (lines 192-236).  Besides the result it
returns the updated cache and a log of remote-lookup sessions performed,
labelled by the cache strategy tag (one `"name"` entry per PubChem session;
a session may comprise up to two HTTP requests, property then synonyms).
Every non-cached exit of the Python function stores the value it returns
under `"name:" + smiles`, so the body is the session result plus one cache
insertion. -/
def resolve_name_with_pubchem (w : RemoteServices) (smiles : String)
    (c : Cache) : Option String × Cache × List String :=
  let key := "name:" ++ smiles
  match cacheFind c key with
  | some v => (v, c, [])
  | none =>
    let r := pubchemSession w smiles
    (r, (key, r) :: c, ["name"])

/-- The remote portion of the CACTUS fallback in `resolve_name`
(lines 252-264): on HTTP 200 with a stripped body that is non-empty and does
not contain "Not Found", the stripped body is the name; any other outcome
(exception included) yields nothing. -/
def cactusSession (w : RemoteServices) (smiles : String) : Option String :=
  match w.cactus smiles with
  | CacResp.exn => none
  | CacResp.resp st txt =>
    let t := pyStrip txt
    if st = 200 ∧ t ≠ "" ∧ ¬ containsSub t "Not Found" then some t else none

/-- The dictionary scan of `resolve_name` (lines 241-244): first entry of
`KNOWN_COMPOUND_NAMES` whose key equals the query exactly or after
normalization of both sides. -/
def lookupKnownAux (smiles ns : String) : List (String × String) → Option String
  | [] => none
  | (k, nm) :: rest =>
    if smiles = k ∨ ns = _norm_smiles k then some nm else lookupKnownAux smiles ns rest

/-- Dictionary lookup entry point used by `resolve_name`. -/
def lookupKnown (smiles : String) : Option String :=
  lookupKnownAux smiles (_norm_smiles smiles) KNOWN_COMPOUND_NAMES

/-- `resolve_name` (lines 239-267): curated dictionary, then the cached
PubChem session, then the cached CACTUS session; every non-cached CACTUS exit
stores the returned value under `"cactus:" + smiles`. -/
def resolve_name (w : RemoteServices) (smiles : String) (c : Cache) :
    Option String × Cache × List String :=
  match lookupKnown smiles with
  | some nm => (some nm, c, [])
  | none =>
    match resolve_name_with_pubchem w smiles c with
    | (some nm, c1, l1) => (some nm, c1, l1)
    | (none, c1, l1) =>
      let key := "cactus:" ++ smiles
      match cacheFind c1 key with
      | some v => (v, c1, l1)
      | none =>
        let r := cactusSession w smiles
        (r, (key, r) :: c1, l1 ++ ["cactus"])

/-- The preferred-solvent scan of `pick_primary_solvent` (lines 271-273):
first solvent present in `PREFERRED_SOLVENTS`, with its mapped name. -/
def findPreferredPair : List String → Option (String × String)
  | [] => none
  | s :: rest =>
    match (PREFERRED_SOLVENTS.find? (fun p => p.1 = s)) with
    | some p => some (s, p.2)
    | none => findPreferredPair rest

/-- `pick_primary_solvent` (lines 270-278): first preferred solvent, else
the first solvent resolved through the cached PubChem session, else nothing;
returns `((solvent_smiles, solvent_name), cache, remote-session log)`. -/
def pick_primary_solvent (w : RemoteServices) (solvent_smiles : List String)
    (c : Cache) : (Option String × Option String) × Cache × List String :=
  match findPreferredPair solvent_smiles with
  | some (s, nm) => ((some s, some nm), c, [])
  | none =>
    match solvent_smiles with
    | [] => ((none, none), c, [])
    | s0 :: _ =>
      match resolve_name_with_pubchem w s0 c with
      | (nm, c1, l1) => ((some s0, nm), c1, l1)

/-- One record emitted by `scrape_all` (lines 301-308).  The structure has
exactly the four fields of the Python dict literal: `solvent` (resolved name
or `None`), `reactant_smiles`, `solvent_smiles`, `product_smiles`. -/
structure ReactionRecord where
  solvent : Option String
  reactant_smiles : List String
  solvent_smiles : List String
  product_smiles : List String
deriving DecidableEq

/-- Python `[s_smiles] if s_smiles else []` (line 305): a singleton when the
value is truthy (present and non-empty), else empty. -/
def pyOptToList : Option String → List String
  | some t => if t = "" then [] else [t]
  | none => []

/-- Construction of one output record from one raw reaction string
(lines 296-308 of `scrape_all`). -/
def mkRecord (w : RemoteServices) (rs : String) (c : Cache) :
    ReactionRecord × Cache × List String :=
  let item := parse_reaction_string rs
  match pick_primary_solvent w item.solvents c with
  | ((sSmiles, sName), c1, l1) =>
    ({ solvent := sName
       reactant_smiles := item.reactant_smiles
       solvent_smiles := pyOptToList sSmiles
       product_smiles := item.product_smiles }, c1, l1)

/-- The `for rs in rxn_strings` loop of `scrape_all` (lines 295-308),
threading the name cache left to right. -/
def processReactions (w : RemoteServices) : List String → Cache →
    List ReactionRecord × Cache × List String
  | [], c => ([], c, [])
  | rs :: rest, c =>
    match mkRecord w rs c with
    | (r0, c1, l1) =>
      match processReactions w rest c1 with
      | (recs, c2, l2) => (r0 :: recs, c2, l1 ++ l2)

/-- Observable content of one fetched list page: the HTTP status, the raw
reaction strings that `extract_reactions_from_list` finds in its markup, and
the resolved "next page" link that `find_next_page` finds (or `none`).  The
markup scanning itself (regex/BeautifulSoup over the HTML text) is the
external parsing layer; the crawl logic only consumes these observables. -/
structure PageResp where
  status : Nat
  reactions : List String
  next : Option String

/-- Result of a crawl: the URLs fetched in order, the emitted records, the
final name cache, and the remote-session log. -/
structure CrawlOut where
  fetched : List String
  records : List ReactionRecord
  cache : Cache
  calls : List String

/-- The `while url and url not in seen_pages and pages < max_pages` loop of
`scrape_all` (lines 288-312).  `fuel` is the number of remaining permitted
iterations (`max_pages - pages`), which is exact because `pages` increments
once per iteration; Python's truthiness test on `url` exits on `None` or the
empty string.  A non-200 response breaks out after the fetch, before any
extraction. -/
def crawlLoop (w : RemoteServices) (fetch : String → PageResp) :
    Option String → List String → Cache → Nat → CrawlOut
  | _, _, c, 0 => ⟨[], [], c, []⟩
  | none, _, c, _ + 1 => ⟨[], [], c, []⟩
  | some url, seen, c, fuel + 1 =>
    if url = "" ∨ url ∈ seen then ⟨[], [], c, []⟩
    else
      let page := fetch url
      if page.status ≠ 200 then ⟨[url], [], c, []⟩
      else
        match processReactions w page.reactions c with
        | (recs, c1, l1) =>
          let out := crawlLoop w fetch page.next (url :: seen) c1 fuel
          ⟨url :: out.fetched, recs ++ out.records, out.cache, l1 ++ out.calls⟩

/-- `DEFAULT_DOI` (line 13). -/
def DEFAULT_DOI : String := "10.1021/jacsau.4c01276"

/-- `LIST_TEMPLATE.format(doi=..., start=0)` (line 283). -/
def listUrl (doi : String) : String :=
  "https://kmt.vander-lingen.nl/data/reaction/doi/" ++ doi ++ "/start/0"

/-- Python `doi or DEFAULT_DOI`: the default replaces a falsy (absent or
empty) argument. -/
def doiOrDefault : Option String → String
  | some d => if d = "" then DEFAULT_DOI else d
  | none => DEFAULT_DOI

/-- `scrape_all` (lines 281-313), with `max_pages` as the page cap. -/
def scrape_all (w : RemoteServices) (fetch : String → PageResp)
    (max_pages : Nat) (doi : Option String) (c : Cache) : CrawlOut :=
  crawlLoop w fetch (some (listUrl (doiOrDefault doi))) [] c max_pages

/-- Insertion of a string into a sorted list (ascending code-point order,
matching Python `sorted` on strings). -/
def insertStr (a : String) : List String → List String
  | [] => [a]
  | b :: t => if strLe a b then a :: b :: t else b :: insertStr a t

/-- Insertion sort on strings. -/
def sortStrs : List String → List String
  | [] => []
  | a :: t => insertStr a (sortStrs t)

/-- Python `sorted(set([s for s in l if s]))` (lines 144-146): drop falsy
entries, deduplicate, sort ascending. -/
def sortedSet (l : List String) : List String :=
  sortStrs (l.filter (fun v => v ≠ "")).dedup

/-- One cell of a table row as the detail-page parser observes it:
`get_text(" ", strip=True)` of the cell and the `stripped_strings` text
blocks of the cell (`extract_text_blocks`, lines 83-87).  Producing these
from raw markup is the external HTML parser. -/
structure Cell where
  text : String
  blocks : List String

/-- One child of a `dl` element: its tag name (only `dt`/`dd` pairs are
consumed), its text, and its text blocks. -/
structure DlItem where
  tag : String
  text : String
  blocks : List String

/-- Field accumulator of `parse_details_page`. -/
structure FieldAcc where
  rs : List String
  sv : List String
  ps : List String
  names : List String

/-- The key/value classification shared by the table pass (lines 104-118)
and the definition-list pass (lines 128-137): substring tests on the
lowercased key decide which field list the non-empty value blocks extend. -/
def classifyKV (key : String) (vals : List String) (a : FieldAcc) : FieldAcc :=
  if containsSub key "reactant" && containsSub key "smiles" then
    { a with rs := a.rs ++ vals.filter (fun v => v ≠ "" && v ≠ "SMILES") }
  else if containsSub key "reactant" && containsSub key "solvent" then
    { a with sv := a.sv ++ vals.filter (fun v => v ≠ "") }
  else if containsSub key "product" && containsSub key "smiles" then
    { a with ps := a.ps ++ vals.filter (fun v => v ≠ "" && v ≠ "SMILES") }
  else if containsSub key "product" && (containsSub key "name" || key = "product") then
    { a with names := a.names ++ vals.filter (fun v => v ≠ "") }
  else a

/-- One table row (lines 100-118): the first two cells form a key/value
pair; rows with fewer than two cells are skipped. -/
def rowStep (a : FieldAcc) (row : List Cell) : FieldAcc :=
  match row with
  | c0 :: c1 :: _ => classifyKV (lowerStr c0.text) c1.blocks a
  | _ => a

/-- The `range(0, len(items) - 1, 2)` pairing loop over a definition list's
children (lines 122-137): consecutive non-overlapping pairs, consumed only
when they are a `dt`/`dd` pair. -/
def dlPairs : List DlItem → FieldAcc → FieldAcc
  | dt :: dd :: rest, a =>
    let a1 := if dt.tag = "dt" ∧ dd.tag = "dd" then classifyKV (lowerStr dt.text) dd.blocks a else a
    dlPairs rest a1
  | _, a => a

/-- A detail page as the parser observes it: its tables (rows of cells), its
definition lists (children), and the flattened page text
(`"\n".join(soup.stripped_strings)`, line 92). -/
structure DetailPage where
  tables : List (List (List Cell))
  dls : List (List DlItem)
  text : String

/-- Result of `parse_details_page` (lines 143-148). -/
structure DetailData where
  reactant_smiles : List String
  solvents : List String
  product_smiles : List String
  product_name : Option String
deriving DecidableEq

/-- One attempt of the free-text regex `SMILES\s*[:=]\s*([^\s]+)` (case
insensitive, line 140) at the current position: the literal `SMILES`, then
optional whitespace, `:` or `=`, optional whitespace, then a maximal
non-empty run of non-whitespace characters; returns the captured token and
the rest of the input after the match. -/
def tryMatchAt (l : List Char) : Option (String × List Char) :=
  if ((l.take 6).map Char.toLower) = "smiles".data then
    let r1 := (l.drop 6).dropWhile Char.isWhitespace
    match r1 with
    | c :: r2 =>
      if c = ':' ∨ c = '=' then
        let r3 := r2.dropWhile Char.isWhitespace
        let tok := r3.takeWhile (fun ch => ¬ ch.isWhitespace)
        if tok = [] then none else some (⟨tok⟩, r3.drop tok.length)
      else none
    | [] => none
  else none

/-- `re.finditer` semantics for the pattern above: scan left to right,
taking non-overlapping matches; the fuel (initial input length) bounds the
scan and is sufficient because every step consumes at least one character. -/
def scanAux : Nat → List Char → List String
  | 0, _ => []
  | _, [] => []
  | n + 1, c :: rest =>
    match tryMatchAt (c :: rest) with
    | some (tok, r) => tok :: scanAux n r
    | none => scanAux n rest

/-- All matches of the free-text `SMILES: <value>` pattern in a text. -/
def scanSmiles (s : String) : List String :=
  scanAux s.data.length s.data

/-- `parse_details_page` (lines 90-149): table pass; definition-list pass
when any of the three structure categories is still empty; free-text
fallback when reactants are still empty; then per-field
filter/deduplicate/sort, and the first collected product name. -/
def parse_details_page (p : DetailPage) : DetailData :=
  let a0 : FieldAcc := ⟨[], [], [], []⟩
  let a1 := p.tables.foldl (fun a t => t.foldl rowStep a) a0
  let a2 := if a1.rs = [] ∨ a1.sv = [] ∨ a1.ps = [] then
      p.dls.foldl (fun a d => dlPairs d a) a1
    else a1
  let rs := if a2.rs = [] then a2.rs ++ scanSmiles p.text else a2.rs
  { reactant_smiles := sortedSet rs
    solvents := sortedSet a2.sv
    product_smiles := sortedSet a2.ps
    product_name := a2.names.head? }

/-- Digit run of Python `int(str)` after the optional sign: decimal digits
with single underscores allowed only between digits (the caller has already
checked that the first character is a digit). -/
def pyDigits : List Char → Option Nat → Option Nat
  | [], acc => acc
  | '_' :: c :: rest, acc =>
    if c.isDigit then
      pyDigits rest (acc.map (fun n => n * 10 + (c.toNat - 48)))
    else none
  | ['_'], _ => none
  | c :: rest, acc =>
    if c.isDigit then
      pyDigits rest (acc.map (fun n => n * 10 + (c.toNat - 48)))
    else none

/-- Unsigned part of Python `int(str)`: non-empty, starts with a digit. -/
def pyNat (l : List Char) : Option Nat :=
  match l with
  | [] => none
  | c :: _ => if c.isDigit then pyDigits l (some 0) else none

/-- Python `int(str)` on ASCII input: surrounding whitespace stripped, one
optional sign, then digits (underscore-separated runs allowed); `none` when
the call would raise `ValueError`. -/
def pyInt (s : String) : Option Int :=
  match (pyStrip s).data with
  | '+' :: rest => (pyNat rest).map Int.ofNat
  | '-' :: rest => (pyNat rest).map (fun n => -(n : Int))
  | l => (pyNat l).map Int.ofNat

/-- Python `l[:k]` for an optional slice bound: `None` keeps everything, a
non-negative bound keeps a prefix, a negative bound drops that many elements
from the end (clamped at zero). -/
def pySliceTo (k : Option Int) (l : List String) : List String :=
  match k with
  | none => l
  | some n => if 0 ≤ n then l.take n.toNat else l.take (l.length - (-n).toNat)

/-- Mutable locals of the argument loop of `main` (lines 399-404). -/
structure ArgState where
  max_pages : Int
  targets : List String
  combined_out : Option String
  archive_limit : Option Int
deriving DecidableEq

/-- Initial argument state: `max_pages = 15`, no targets, no output path,
no archive limit. -/
def initArgState : ArgState :=
  { max_pages := 15, targets := [], combined_out := none, archive_limit := none }

/-- Environment of the argument loop: fetching and scanning an archive page
(`s.get` + `extract_dois_from_archive`, an HTML scan by the external parser)
is observed as the extracted DOI list, or `none` when the request fails or
returns non-200 (the surrounding `try/except: pass` swallows it). -/
structure ArgEnv where
  archiveDois : String → Option (List String)

/-- Targets contributed by one archive fetch (lines 422-428 / 441-447): the
extracted DOIs, truncated by the current `archive_limit` when set; nothing
on failure. -/
def archiveTargets (env : ArgEnv) (st : ArgState) (url : String) : List String :=
  match env.archiveDois url with
  | some ds => pySliceTo st.archive_limit ds
  | none => []

/-- The `while i < len(args)` argument loop of `main` (lines 405-452).  Each
flag with a following value consumes two tokens; a flag without a following
value and any other token fall to the final branch, which treats tokens
containing "archive" as archive URLs and everything else as a bare target.
A malformed integer after `--max-pages` is swallowed (`except: pass`,
value unchanged); one after `--archive-limit` assigns `None`. -/
def processArgs (env : ArgEnv) : List String → ArgState → ArgState
  | [], st => st
  | "--max-pages" :: v :: rest, st =>
    processArgs env rest { st with max_pages := (pyInt v).getD st.max_pages }
  | "--doi" :: v :: rest, st =>
    processArgs env rest { st with targets := st.targets ++ [v] }
  | "--combined-out" :: v :: rest, st =>
    processArgs env rest { st with combined_out := some v }
  | "--archive" :: v :: rest, st =>
    processArgs env rest { st with targets := st.targets ++ archiveTargets env st v }
  | "--archive-limit" :: v :: rest, st =>
    processArgs env rest { st with archive_limit := pyInt v }
  | a :: rest, st =>
    processArgs env rest
      (if containsSub a "archive" then
        { st with targets := st.targets ++ archiveTargets env st a }
      else { st with targets := st.targets ++ [a] })

/-- Characters `urlsplit` accepts inside a scheme. -/
def isSchemeChar (c : Char) : Bool :=
  c.isAlphanum || c = '+' || c = '-' || c = '.'

/-- `urlsplit` scheme removal: strip a leading `<scheme>:` when the part
before the first colon is a non-empty valid scheme. -/
def stripScheme (l : List Char) : List Char :=
  let pre := l.takeWhile (fun c => c ≠ ':')
  match l.drop pre.length with
  | ':' :: rest =>
    if pre ≠ [] ∧ (pre.headD ' ').isAlpha ∧ pre.all isSchemeChar then rest else l
  | _ => l

/-- `urlsplit` netloc removal: after `//`, the netloc extends to the next
`/`, `?` or `#`. -/
def stripNetloc (l : List Char) : List Char :=
  match l with
  | '/' :: '/' :: rest => rest.dropWhile (fun c => c ≠ '/' ∧ c ≠ '?' ∧ c ≠ '#')
  | _ => l

/-- `urlparse(arg).path`: drop the fragment, the scheme, the netloc and the
query, keeping the path component. -/
def pyUrlPath (u : String) : String :=
  ⟨(stripNetloc (stripScheme (u.data.takeWhile (fun c => c ≠ '#')))).takeWhile
    (fun c => c ≠ '?')⟩

/-- Lazy capture of `(.+?)(?:/start|$)`: having consumed a non-empty prefix
(held reversed in `acc`), stop at the first position where `/start` follows,
or at the end of the input. -/
def lazyGo (acc : List Char) : List Char → List Char
  | [] => acc.reverse
  | c :: r =>
    if "/start".data.isPrefixOf (c :: r) then acc.reverse else lazyGo (c :: acc) r

/-- The capture group of `/doi/(.+?)(?:/start|$)` applied to the text after
`/doi/`; fails only when that text is empty. -/
def lazyCapture : List Char → Option (List Char)
  | [] => none
  | c :: r => some (lazyGo [c] r)

/-- `re.search(r"/doi/(.+?)(?:/start|$)", path)` (line 171): try each start
position left to right; at a position where `/doi/` matches, return the lazy
capture of the remainder when possible, otherwise keep scanning. -/
def searchDoiAux : Nat → List Char → Option String
  | _, [] => none
  | 0, _ => none
  | n + 1, l =>
    if "/doi/".data.isPrefixOf l then
      match lazyCapture (l.drop 5) with
      | some cap => some ⟨cap⟩
      | none => searchDoiAux n l.tail
    else searchDoiAux n l.tail

/-- `extract_doi_from_arg` (lines 167-177): URLs (arguments starting with
"http") are reduced to the DOI captured from their path; anything else is
returned as-is.  Nothing in the body can raise, so the `except` branch is
dead. -/
def extract_doi_from_arg (arg : String) : Option String :=
  if pyStartsWith arg "http" then
    searchDoiAux (pyUrlPath arg).data.length (pyUrlPath arg).data
  else some arg

/-- External collaborators of `main`: the remote name services, the list
page fetcher, and the archive-page DOI extraction. -/
structure MainWorld where
  services : RemoteServices
  fetch : String → PageResp
  archiveDois : String → Option (List String)

/-- The `for t in targets` aggregation loop of `main` (lines 457-465):
targets that fail DOI extraction are skipped, the others are scraped in
order with the shared name cache threaded through. -/
def collectResults (w : MainWorld) (mp : Int) :
    List String → Cache → List ReactionRecord × Cache
  | [], c => ([], c)
  | t :: rest, c =>
    match extract_doi_from_arg t with
    | none => collectResults w mp rest c
    | some d =>
      let out := scrape_all w.services w.fetch mp.toNat (some d) c
      match collectResults w mp rest out.cache with
      | (more, c2) => (out.records ++ more, c2)

/-- Argument state computed by `main` for a CLI argument list (`argv[1:]`). -/
def mainConfig (w : MainWorld) (args : List String) : ArgState :=
  processArgs ⟨w.archiveDois⟩ args initArgState

/-- `if not targets: targets = [DEFAULT_DOI]` (lines 453-454). -/
def mainTargets (st : ArgState) : List String :=
  if st.targets = [] then [DEFAULT_DOI] else st.targets

/-- Default for `--combined-out` (lines 455-456). -/
def outPathOf (st : ArgState) : String :=
  st.combined_out.getD "kmt_reactions_combined.json"

/-- The aggregated `all_results` list of `main`. -/
def mainAllResults (w : MainWorld) (args : List String) : List ReactionRecord :=
  (collectResults w (mainConfig w args).max_pages (mainTargets (mainConfig w args)) []).1

/-- `main` (lines 316-470), observed through its file output: the
`--debug-list` mode only prints diagnostics and returns; otherwise the
combined JSON array is written to the output path only when `all_results` is
non-empty (`if all_results:` at line 466). -/
def runMain (w : MainWorld) (args : List String) :
    Option (String × List ReactionRecord) :=
  if args.headD "" = "--debug-list" then none
  else
    let st := mainConfig w args
    let res := mainAllResults w args
    if res = [] then none else some (outPathOf st, res)

/-- Modelled from the spec (claim C7's wording): "a purely numeric
CID-style identifier" - a CID prefix (case-insensitive) followed, after
optional spaces, by a non-empty run of digits. -/
def isPureNumericCid (s : String) : Bool :=
  pyStartsWith (lowerStr s) "cid" &&
    (let r := pyStrip ⟨s.data.drop 3⟩
     r ≠ "" && r.data.all Char.isDigit)

/-- Modelled from the spec (claim C7's wording): the synonym the claim says
resolution returns - the first synonym that is not a purely numeric
CID-style identifier and does not fully match the CAS pattern. -/
def specFirstValidSynonym (syns : List String) : Option String :=
  syns.find? (fun s => ¬ isPureNumericCid s ∧ ¬ casMatch s)

/-- Remote-service oracle in which every request raises (network down). -/
def stubServices : RemoteServices :=
  ⟨fun _ => PropResp.exn, fun _ => SynResp.exn, fun _ => CacResp.exn⟩

/-- Page oracle serving one list page with a single reaction string and no
next link. -/
def onePageFetch : String → PageResp := fun _ => ⟨200, ["A>>B"], none⟩

/-- Page oracle on which every fetch returns HTTP 404. -/
def failFetch : String → PageResp := fun _ => ⟨404, [], none⟩

/-- Argument-loop environment whose archive fetches all fail. -/
def noArchiveEnv : ArgEnv := ⟨fun _ => none⟩

/-- A `main` world where every page fetch fails and the network is down. -/
def failWorld : MainWorld := ⟨stubServices, failFetch, fun _ => none⟩

/-- Oracle whose property lookup returns 404 and whose synonym list is
`["Cidofovir"]` - a legitimate chemical name that happens to start with
"cid". -/
def cidofovirServices : RemoteServices :=
  ⟨fun _ => PropResp.resp 404 [],
   fun _ => SynResp.resp 200 [["Cidofovir"]],
   fun _ => CacResp.exn⟩

/-- Oracle whose property lookup returns 404 and whose synonym list mixes a
CAS number, a CID label, an empty entry and a real name. -/
def synListServices : RemoteServices :=
  ⟨fun _ => PropResp.resp 404 [],
   fun _ => SynResp.resp 200 [["123-45-6", "CID 99", "", "Aspirin"]],
   fun _ => CacResp.exn⟩

/-! ## Theorems -/

/-- Character-level view of `removeChar`. -/
theorem removeChar_data (c : Char) (s : String) :
    (removeChar c s).data = s.data.filter (fun a => a ≠ c) := rfl

/-- The two cache keys built for one structure string are distinct. -/
theorem key_ne_name_cactus (s : String) : ("name:" ++ s) ≠ ("cactus:" ++ s) := by
  intro h
  have h2 := congrArg String.data h
  rw [String.data_append, String.data_append] at h2
  simp at h2

/-- C9: normalization is idempotent: stripping the bond/stereo marker
characters twice equals stripping them once, for every structure string. -/
theorem norm_smiles_idempotent (s : String) :
    _norm_smiles (_norm_smiles s) = _norm_smiles s := by
  apply String.ext
  simp only [_norm_smiles, removeChar_data, List.filter_filter]
  apply List.filter_congr
  intro a _
  by_cases h1 : a = '\\' <;> by_cases h2 : a = '/' <;> simp [h1, h2]

/-- C1: `parse_reaction_string` pads missing trailing fields with empty
strings instead of erroring: with no `>` separator (a one-part split) both
the solvent and the product field come from padding and parse to empty
lists; with one separator (a two-part split) the product field does; and
`parse_reaction_string "A.B>>C"` yields reactants `["A", "B"]`, no
solvents, and products `["C"]`. -/
theorem parse_reaction_string_pads :
    (∀ s : String, (pySplit '>' s).length = 1 →
      (parse_reaction_string s).solvents = [] ∧
      (parse_reaction_string s).product_smiles = []) ∧
    (∀ s : String, (pySplit '>' s).length = 2 →
      (parse_reaction_string s).product_smiles = []) ∧
    parse_reaction_string "A.B>>C" =
      { smiles := "A.B>>C", reactant_smiles := ["A", "B"], solvents := [],
        product_smiles := ["C"] } := by
  refine ⟨?_, ?_, by decide⟩
  · intro s h
    obtain ⟨a, ha⟩ := List.length_eq_one.mp h
    refine ⟨?_, ?_⟩
    · rw [show (parse_reaction_string s).solvents
          = splitField ((pad3 (pySplit '>' s)).getD 1 "") from rfl, ha]
      rfl
    · rw [show (parse_reaction_string s).product_smiles
          = splitField ((pad3 (pySplit '>' s)).getD 2 "") from rfl, ha]
      rfl
  · intro s h
    obtain ⟨a, b, hab⟩ := List.length_eq_two.mp h
    rw [show (parse_reaction_string s).product_smiles
        = splitField ((pad3 (pySplit '>' s)).getD 2 "") from rfl, hab]
    rfl

/-- Witness for C1 at the concrete inputs `"A"` (no separator) and `"A>B"`
(one separator). -/
theorem parse_reaction_string_pads_witness :
    ((pySplit '>' "A").length = 1 ∧ (parse_reaction_string "A").solvents = [] ∧
      (parse_reaction_string "A").product_smiles = []) ∧
    ((pySplit '>' "A>B").length = 2 ∧
      (parse_reaction_string "A>B").product_smiles = []) :=
  ⟨⟨by decide, parse_reaction_string_pads.1 "A" (by decide)⟩,
   ⟨by decide, parse_reaction_string_pads.2.1 "A>B" (by decide)⟩⟩

/-- The first dictionary entry whose key matches (exactly or normalized) is
returned, provided the normalized keys are pairwise distinct along the
list. -/
theorem lookupKnownAux_first (s k nm : String) (l : List (String × String))
    (hmem : (k, nm) ∈ l)
    (hdist : l.Pairwise (fun p q => _norm_smiles p.1 ≠ _norm_smiles q.1))
    (hn : _norm_smiles s = _norm_smiles k) :
    lookupKnownAux s (_norm_smiles s) l = some nm := by
  induction l with
  | nil => cases hmem
  | cons p rest ih =>
    rcases List.mem_cons.mp hmem with heq | hmem2
    · obtain ⟨rfl, rfl⟩ : p.1 = k ∧ p.2 = nm := by
        rw [Prod.ext_iff] at heq
        exact ⟨heq.1.symm, heq.2.symm⟩
      show lookupKnownAux s (_norm_smiles s) ((p.1, p.2) :: rest) = some p.2
      simp only [lookupKnownAux]
      rw [if_pos (Or.inr hn)]
    · have hpk : _norm_smiles p.1 ≠ _norm_smiles k :=
        (List.pairwise_cons.mp hdist).1 (k, nm) hmem2
      have hcond : ¬ (s = p.1 ∨ _norm_smiles s = _norm_smiles p.1) := by
        rintro (rfl | h)
        · exact hpk hn
        · exact hpk (h.symm.trans hn)
      cases p with
      | mk k1 n1 =>
        simp only [lookupKnownAux]
        rw [if_neg hcond]
        exact ih hmem2 (List.pairwise_cons.mp hdist).2

/-- C3: dictionary resolution takes precedence: when the queried structure
matches a curated entry exactly or after normalization, `resolve_name`
returns that entry's name with the cache untouched and an empty
remote-session log - no remote call is made, whatever the remote oracles
would answer. -/
theorem resolve_name_dictionary_precedence (w : RemoteServices) (c : Cache)
    (s k nm : String) (hmem : (k, nm) ∈ KNOWN_COMPOUND_NAMES)
    (hmatch : s = k ∨ _norm_smiles s = _norm_smiles k) :
    resolve_name w s c = (some nm, c, []) := by
  have hn : _norm_smiles s = _norm_smiles k := by
    rcases hmatch with rfl | h
    · rfl
    · exact h
  have hdist : KNOWN_COMPOUND_NAMES.Pairwise
      (fun p q => _norm_smiles p.1 ≠ _norm_smiles q.1) := by decide
  have hl : lookupKnown s = some nm :=
    lookupKnownAux_first s k nm KNOWN_COMPOUND_NAMES hmem hdist hn
  simp [resolve_name, hl]

/-- Witness for C3: the first curated key written with single backslashes
(a stereo-notation variant of the stored key) resolves through the
dictionary against the all-failing remote oracle. -/
theorem resolve_name_dictionary_precedence_witness :
    (("C(C)(=O)OC\\\\C=C(/C)\\\\CC\\\\C=C(/C)\\\\CCC=C(C)C",
        "(2E,6E)-Farnesyl Acetate") ∈ KNOWN_COMPOUND_NAMES) ∧
    resolve_name stubServices "C(C)(=O)OC\\C=C(/C)\\CC\\C=C(/C)\\CCC=C(C)C" [] =
      (some "(2E,6E)-Farnesyl Acetate", [], []) :=
  ⟨by decide,
   resolve_name_dictionary_precedence stubServices []
     "C(C)(=O)OC\\C=C(/C)\\CC\\C=C(/C)\\CCC=C(C)C"
     "C(C)(=O)OC\\\\C=C(/C)\\\\CC\\\\C=C(/C)\\\\CCC=C(C)C"
     "(2E,6E)-Farnesyl Acetate" (by decide) (Or.inr (by decide))⟩

/-- C4: the resolver is cache-consistent: resolving the same structure
string twice in a row returns the identical result the second time
(including the cached-absent case), changes nothing in the cache, performs
no remote-lookup session during the second resolution, and across both
resolutions performs at most one remote-lookup session per strategy tag
(`"name"` for the PubChem session, `"cactus"` for the CACTUS session). -/
theorem resolve_name_cache_consistent (w : RemoteServices) (s : String) (c : Cache) :
    (resolve_name w s (resolve_name w s c).2.1).1 = (resolve_name w s c).1 ∧
    (resolve_name w s (resolve_name w s c).2.1).2.1 = (resolve_name w s c).2.1 ∧
    (resolve_name w s (resolve_name w s c).2.1).2.2 = [] ∧
    ((resolve_name w s c).2.2 ++
      (resolve_name w s (resolve_name w s c).2.1).2.2).count "name" ≤ 1 ∧
    ((resolve_name w s c).2.2 ++
      (resolve_name w s (resolve_name w s c).2.1).2.2).count "cactus" ≤ 1 := by
  have hne1 : ("name:" ++ s) ≠ ("cactus:" ++ s) := key_ne_name_cactus s
  have hne2 : ("cactus:" ++ s) ≠ ("name:" ++ s) := hne1.symm
  cases hk : lookupKnown s with
  | some nm => simp [resolve_name, hk]
  | none =>
    cases h1 : cacheFind c ("name:" ++ s) with
    | some v =>
      cases v with
      | some nm => simp [resolve_name, resolve_name_with_pubchem, hk, h1]
      | none =>
        cases h2 : cacheFind c ("cactus:" ++ s) with
        | some v2 =>
          simp [resolve_name, resolve_name_with_pubchem, hk, h1, h2]
        | none =>
          simp [resolve_name, resolve_name_with_pubchem, hk, h1, h2,
            cacheFind, hne1, hne2]
    | none =>
      cases hr : pubchemSession w s with
      | some nm =>
        simp [resolve_name, resolve_name_with_pubchem, hk, h1, hr, cacheFind]
      | none =>
        cases h2 : cacheFind c ("cactus:" ++ s) with
        | some v2 =>
          simp [resolve_name, resolve_name_with_pubchem, hk, h1, hr, h2,
            cacheFind, hne1, hne2]
        | none =>
          simp [resolve_name, resolve_name_with_pubchem, hk, h1, hr, h2,
            cacheFind, hne1, hne2]

/-- Crawl-loop invariant: the fetched-URL list is no longer than the fuel,
contains no duplicates, and avoids every URL already in the seen set. -/
theorem crawlLoop_fetched_inv (w : RemoteServices) (fetch : String → PageResp) :
    ∀ (fuel : Nat) (url? : Option String) (seen : List String) (c : Cache),
      (crawlLoop w fetch url? seen c fuel).fetched.length ≤ fuel ∧
      (crawlLoop w fetch url? seen c fuel).fetched.Nodup ∧
      ∀ u ∈ (crawlLoop w fetch url? seen c fuel).fetched, u ∉ seen := by
  intro fuel
  induction fuel with
  | zero =>
    intro url? seen c
    cases url? <;> simp [crawlLoop]
  | succ n ih =>
    intro url? seen c
    cases url? with
    | none => simp [crawlLoop]
    | some url =>
      by_cases hg : url = "" ∨ url ∈ seen
      · simp [crawlLoop, hg]
      · push_neg at hg
        by_cases hs : (fetch url).status = 200
        · rcases hpr : processReactions w (fetch url).reactions c with ⟨recs, c1, l1⟩
          have hcl : crawlLoop w fetch (some url) seen c (n + 1)
              = ⟨url :: (crawlLoop w fetch (fetch url).next (url :: seen) c1 n).fetched,
                 recs ++ (crawlLoop w fetch (fetch url).next (url :: seen) c1 n).records,
                 (crawlLoop w fetch (fetch url).next (url :: seen) c1 n).cache,
                 l1 ++ (crawlLoop w fetch (fetch url).next (url :: seen) c1 n).calls⟩ := by
            simp [crawlLoop, hg.1, hg.2, hs, hpr]
          obtain ⟨ihlen, ihnd, ihseen⟩ := ih (fetch url).next (url :: seen) c1
          rw [hcl]
          refine ⟨by simpa using ihlen, ?_, ?_⟩
          · refine List.nodup_cons.mpr ⟨?_, ihnd⟩
            intro hmem
            exact (ihseen url hmem) (List.mem_cons_self url seen)
          · intro u hu
            rcases List.mem_cons.mp hu with rfl | hu2
            · exact hg.2
            · intro huseen
              exact (ihseen u hu2) (List.mem_cons_of_mem url huseen)
        · have hcl : crawlLoop w fetch (some url) seen c (n + 1) = ⟨[url], [], c, []⟩ := by
            simp [crawlLoop, hg.1, hg.2, hs]
          rw [hcl]
          refine ⟨by simp, by simp, ?_⟩
          intro u hu
          rcases List.mem_singleton.mp hu with rfl
          exact hg.2

/-- C2: for every page graph (`fetch` oracle), start DOI and page cap,
`scrape_all` performs at most `max_pages` fetches and never fetches a URL
already in its seen set: the seen set at each fetch is exactly the
previously fetched URLs (the crawl starts with an empty seen set), so the
no-revisit guarantee is the fetched list having no duplicates - in
particular the loop terminates even when the "next" links form a cycle. -/
theorem scrape_all_fetch_bound (w : RemoteServices) (fetch : String → PageResp)
    (max_pages : Nat) (doi : Option String) (c : Cache) :
    (scrape_all w fetch max_pages doi c).fetched.length ≤ max_pages ∧
    (scrape_all w fetch max_pages doi c).fetched.Nodup :=
  ⟨(crawlLoop_fetched_inv w fetch max_pages (some (listUrl (doiOrDefault doi))) [] c).1,
   (crawlLoop_fetched_inv w fetch max_pages (some (listUrl (doiOrDefault doi))) [] c).2.1⟩

/-- The solvent list placed in a record is `[s]` or `[]`. -/
theorem pyOptToList_length (o : Option String) : (pyOptToList o).length ≤ 1 := by
  cases o with
  | none => simp [pyOptToList]
  | some t =>
    by_cases h : t = "" <;> simp [pyOptToList, h]

/-- Every record built by `mkRecord` carries at most one solvent SMILES. -/
theorem mkRecord_solvent_len (w : RemoteServices) (rs : String) (c : Cache) :
    (mkRecord w rs c).1.solvent_smiles.length ≤ 1 := by
  rcases hp : pick_primary_solvent w (parse_reaction_string rs).solvents c
    with ⟨⟨sS, sN⟩, c1, l1⟩
  simp [mkRecord, hp, pyOptToList_length]

/-- Every record emitted for a page's reaction strings carries at most one
solvent SMILES. -/
theorem processReactions_solvent_len (w : RemoteServices) :
    ∀ (rxns : List String) (c : Cache) (r0 : ReactionRecord),
      r0 ∈ (processReactions w rxns c).1 → r0.solvent_smiles.length ≤ 1 := by
  intro rxns
  induction rxns with
  | nil => intro c r0 h; simp [processReactions] at h
  | cons rs rest ih =>
    intro c r0 h
    rcases hm : mkRecord w rs c with ⟨rec0, c1, l1⟩
    rcases hp : processReactions w rest c1 with ⟨recs, c2, l2⟩
    rw [show processReactions w (rs :: rest) c
        = (rec0 :: recs, c2, l1 ++ l2) by simp [processReactions, hm, hp]] at h
    rcases List.mem_cons.mp h with rfl | h2
    · have := mkRecord_solvent_len w rs c
      rw [hm] at this
      exact this
    · exact ih c1 r0 (by rw [hp]; exact h2)

/-- Every record accumulated by the crawl loop carries at most one solvent
SMILES. -/
theorem crawlLoop_solvent_len (w : RemoteServices) (fetch : String → PageResp) :
    ∀ (fuel : Nat) (url? : Option String) (seen : List String) (c : Cache)
      (r0 : ReactionRecord),
      r0 ∈ (crawlLoop w fetch url? seen c fuel).records →
      r0.solvent_smiles.length ≤ 1 := by
  intro fuel
  induction fuel with
  | zero =>
    intro url? seen c r0 h
    cases url? <;> simp [crawlLoop] at h
  | succ n ih =>
    intro url? seen c r0 h
    cases url? with
    | none => simp [crawlLoop] at h
    | some url =>
      by_cases hg : url = "" ∨ url ∈ seen
      · simp [crawlLoop, hg] at h
      · push_neg at hg
        by_cases hs : (fetch url).status = 200
        · rcases hpr : processReactions w (fetch url).reactions c with ⟨recs, c1, l1⟩
          rw [show (crawlLoop w fetch (some url) seen c (n + 1)).records
              = recs ++ (crawlLoop w fetch (fetch url).next (url :: seen) c1 n).records
              by simp [crawlLoop, hg.1, hg.2, hs, hpr]] at h
          rcases List.mem_append.mp h with h2 | h2
          · exact processReactions_solvent_len w (fetch url).reactions c r0
              (by rw [hpr]; exact h2)
          · exact ih (fetch url).next (url :: seen) c1 r0 h2
        · rw [show (crawlLoop w fetch (some url) seen c (n + 1)).records = []
              by simp [crawlLoop, hg.1, hg.2, hs]] at h
          simp at h

/-- C5: every record emitted by `scrape_all` is a `ReactionRecord`, a
structure with exactly the four fields `solvent` (an optional name),
`reactant_smiles`, `solvent_smiles` and `product_smiles` (string lists),
and its `solvent_smiles` list never has more than one element. -/
theorem scrape_all_record_shape (w : RemoteServices) (fetch : String → PageResp)
    (max_pages : Nat) (doi : Option String) (c : Cache) (r0 : ReactionRecord)
    (h : r0 ∈ (scrape_all w fetch max_pages doi c).records) :
    r0.solvent_smiles.length ≤ 1 :=
  crawlLoop_solvent_len w fetch max_pages (some (listUrl (doiOrDefault doi))) [] c r0 h

/-- Witness for C5: a one-page crawl serving the reaction string `"A>>B"`
emits the record with no solvent, reactants `["A"]` and products `["B"]`. -/
theorem scrape_all_record_shape_witness :
    ((⟨none, ["A"], [], ["B"]⟩ : ReactionRecord)
        ∈ (scrape_all stubServices onePageFetch 1 none []).records) ∧
    (⟨none, ["A"], [], ["B"]⟩ : ReactionRecord).solvent_smiles.length ≤ 1 :=
  ⟨by decide,
   scrape_all_record_shape stubServices onePageFetch 1 none []
     ⟨none, ["A"], [], ["B"]⟩ (by decide)⟩

/-- A string is empty exactly when its character list is. -/
theorem string_data_ne_nil {X : String} (hne : X ≠ "") : X.data ≠ [] := by
  intro h0
  apply hne
  cases X with
  | mk l =>
    cases l with
    | nil => rfl
    | cons a t => cases h0

/-- Rebuilding a string from its own characters is the identity. -/
theorem string_mk_data (X : String) : (⟨X.data⟩ : String) = X := by
  cases X with
  | mk l => rfl

/-- The free-text scanner on a page that is exactly `SMILES: <token>`
captures the token, for every non-empty whitespace-free token. -/
theorem scanSmiles_single (X : String) (hne : X ≠ "")
    (hws : ∀ a ∈ X.data, ¬ a.isWhitespace) :
    scanSmiles ("SMILES: " ++ X) = [X] := by
  have hdata : ("SMILES: " ++ X).data
      = 'S':: 'M':: 'I':: 'L':: 'E':: 'S':: ':':: ' '::X.data := by
    rw [String.data_append]
    rfl
  have hdw : X.data.dropWhile Char.isWhitespace = X.data := by
    cases hx : X.data with
    | nil => rfl
    | cons a t =>
      have ha : ¬ a.isWhitespace := hws a (by rw [hx]; exact List.mem_cons_self a t)
      rw [List.dropWhile_cons_of_neg (by simpa using ha)]
  have htw : X.data.takeWhile (fun ch => ¬ ch.isWhitespace) = X.data :=
    List.takeWhile_eq_self_iff.mpr (by intro a ha; simpa using hws a ha)
  have hXne : X.data ≠ [] := string_data_ne_nil hne
  have e1 : tryMatchAt ('S':: 'M':: 'I':: 'L':: 'E':: 'S':: ':':: ' '::X.data)
      = (let r3 := X.data.dropWhile Char.isWhitespace
         let tok := r3.takeWhile (fun ch => ¬ ch.isWhitespace)
         if tok = [] then none else some (⟨tok⟩, r3.drop tok.length)) := rfl
  have e2 : tryMatchAt ('S':: 'M':: 'I':: 'L':: 'E':: 'S':: ':':: ' '::X.data)
      = some (⟨X.data⟩, []) := by
    rw [e1]
    simp only [hdw, htw]
    rw [if_neg hXne, List.drop_length X.data]
  unfold scanSmiles
  rw [hdata]
  simp only [scanAux, e2]

/-- C6: on a detail page with no table and no definition-list markup whose
flattened text is exactly the free-text `SMILES: X`, `parse_details_page`
still recovers the reactant structure set `{X}`, with the other fields
empty. -/
theorem parse_details_free_text_fallback (X : String) (hne : X ≠ "")
    (hws : ∀ a ∈ X.data, ¬ a.isWhitespace) :
    parse_details_page ⟨[], [], "SMILES: " ++ X⟩
      = ⟨[X], [], [], none⟩ := by
  have hrepr : parse_details_page ⟨[], [], "SMILES: " ++ X⟩
      = { reactant_smiles := sortedSet (scanSmiles ("SMILES: " ++ X)),
          solvents := [], product_smiles := [], product_name := none } := rfl
  rw [hrepr, scanSmiles_single X hne hws]
  have hss : sortedSet [X] = [X] := by
    simp [sortedSet, sortStrs, insertStr, hne]
  rw [hss]

/-- Witness for C6 at the concrete token `"CCO"`. -/
theorem parse_details_free_text_fallback_witness :
    ("CCO" ≠ "" ∧ (∀ a ∈ "CCO".data, ¬ a.isWhitespace)) ∧
    parse_details_page ⟨[], [], "SMILES: CCO"⟩ = ⟨["CCO"], [], [], none⟩ :=
  ⟨⟨by decide, by decide⟩,
   parse_details_free_text_fallback "CCO" (by decide) (by decide)⟩

/-- The synonym loop picks the first synonym that is non-empty, whose
lowercase form does not start with "cid", and that does not fully match the
CAS pattern. -/
theorem pickSynonym_eq_find (l : List String) :
    pickSynonym l = l.find? (fun t =>
      (t ≠ "" : Bool) && !(pyStartsWith (lowerStr t) "cid") && !(casMatch t)) := by
  induction l with
  | nil => rfl
  | cons a rest ih =>
    by_cases h1 : a = ""
    · simp [pickSynonym, h1, List.find?, ih]
    · by_cases h2 : pyStartsWith (lowerStr a) "cid"
      · simp [pickSynonym, h1, h2, List.find?, ih]
      · by_cases h3 : casMatch a
        · simp [pickSynonym, h1, h2, h3, List.find?, ih]
        · simp [pickSynonym, h1, h2, h3, List.find?]

/-- C7 counterexample: the claim says the synonym fallback skips only purely
numeric CID-style identifiers and CAS numbers.  `"Cidofovir"` is neither (it
is an ordinary name), so by the claim a resolution whose synonym response is
`["Cidofovir"]` must return it; the code's prefix test skips it and the
resolution returns the absent marker instead. -/
theorem synonym_fallback_skips_cid_prefixed_names :
    specFirstValidSynonym ["Cidofovir"] = some "Cidofovir" ∧
    (resolve_name_with_pubchem cidofovirServices "CCO" []).1 = none ∧
    (resolve_name_with_pubchem cidofovirServices "CCO" []).1
      ≠ specFirstValidSynonym ["Cidofovir"] := by
  refine ⟨by decide, by decide, by decide⟩

/-- C7 amended: in the synonym-lookup fallback (property lookup yielded no
name, synonym request answered 200 with a first information entry),
resolution returns the first synonym that is non-empty, whose lowercase form
does not start with "cid", and that does not fully match the
CAS-registry-number pattern; synonyms failing any of these tests are
skipped. -/
theorem synonym_fallback_first_valid (w : RemoteServices) (s : String)
    (c : Cache) (st : Nat) (props : List (Option String))
    (syns : List String) (more : List (List String))
    (hc : cacheFind c ("name:" ++ s) = none)
    (hp : w.property s = PropResp.resp st props)
    (hpn : propName st props = none)
    (hs : w.synonyms s = SynResp.resp 200 (syns :: more)) :
    (resolve_name_with_pubchem w s c).1 = syns.find? (fun t =>
      (t ≠ "" : Bool) && !(pyStartsWith (lowerStr t) "cid") && !(casMatch t)) := by
  rw [show (resolve_name_with_pubchem w s c)
      = (pubchemSession w s, ("name:" ++ s, pubchemSession w s) :: c, ["name"])
      from by simp [resolve_name_with_pubchem, hc]]
  show pubchemSession w s = _
  rw [pubchemSession, hp]
  simp only [hpn, hs, if_true]
  simp only [List.headD]
  exact pickSynonym_eq_find syns

/-- Witness for the amended C7: with a 404 property lookup and the synonym
list `["123-45-6", "CID 99", "", "Aspirin"]`, resolution skips the CAS
number, the CID label and the empty entry, returning `"Aspirin"`. -/
theorem synonym_fallback_first_valid_witness :
    (resolve_name_with_pubchem synListServices "CC" []).1 = some "Aspirin" := by
  rw [synonym_fallback_first_valid synListServices "CC" [] 404 []
    ["123-45-6", "CID 99", "", "Aspirin"] [] rfl rfl rfl rfl]
  decide

/-- C8: a numeric flag whose argument is not a valid integer is consumed and
ignored without an error: after `--max-pages <bad>` the whole run behaves as
if the flag pair were absent (the prior `max_pages` is retained), and after
`--archive-limit <bad>` it behaves as if the limit were reset to its default
`None`; in both cases parsing continues with the remaining arguments (the
functions are total - nothing is raised). -/
theorem cli_bad_integer_ignored (env : ArgEnv) (st : ArgState) (v : String)
    (rest : List String) (hv : pyInt v = none) :
    processArgs env ("--max-pages" :: v :: rest) st = processArgs env rest st ∧
    processArgs env ("--archive-limit" :: v :: rest) st
      = processArgs env rest { st with archive_limit := none } := by
  constructor
  · rw [show processArgs env ("--max-pages" :: v :: rest) st
        = processArgs env rest { st with max_pages := (pyInt v).getD st.max_pages }
        from rfl, hv]
    rfl
  · rw [show processArgs env ("--archive-limit" :: v :: rest) st
        = processArgs env rest { st with archive_limit := pyInt v }
        from rfl, hv]

/-- Witness for C8 at the malformed integer `"x"` from the initial state. -/
theorem cli_bad_integer_ignored_witness :
    pyInt "x" = none ∧
    processArgs noArchiveEnv ["--max-pages", "x"] initArgState
      = processArgs noArchiveEnv [] initArgState ∧
    processArgs noArchiveEnv ["--archive-limit", "x"] initArgState
      = processArgs noArchiveEnv [] { initArgState with archive_limit := none } :=
  ⟨by decide,
   (cli_bad_integer_ignored noArchiveEnv initArgState "x" [] (by decide)).1,
   (cli_bad_integer_ignored noArchiveEnv initArgState "x" [] (by decide)).2⟩

/-- When every target's scrape yields no records, the aggregation loop
yields no records. -/
theorem collectResults_empty (w : MainWorld) (mp : Int) :
    ∀ (ts : List String) (c : Cache),
      (∀ t d c2, t ∈ ts → extract_doi_from_arg t = some d →
        (scrape_all w.services w.fetch mp.toNat (some d) c2).records = []) →
      (collectResults w mp ts c).1 = [] := by
  intro ts
  induction ts with
  | nil => intro c _; rfl
  | cons t rest ih =>
    intro c h
    cases hd : extract_doi_from_arg t with
    | none =>
      rw [show collectResults w mp (t :: rest) c = collectResults w mp rest c
          from by simp [collectResults, hd]]
      exact ih c (fun t2 d2 c3 ht => h t2 d2 c3 (List.mem_cons_of_mem t ht))
    | some d =>
      have hrec := h t d c (List.mem_cons_self t rest) hd
      rcases hc2 : collectResults w mp rest
          (scrape_all w.services w.fetch mp.toNat (some d) c).cache with ⟨more, c2⟩
      have hmore : more = [] := by
        have h2 := ih (scrape_all w.services w.fetch mp.toNat (some d) c).cache
          (fun t2 d2 c3 ht => h t2 d2 c3 (List.mem_cons_of_mem t ht))
        rw [hc2] at h2
        exact h2
      rw [show collectResults w mp (t :: rest) c
          = ((scrape_all w.services w.fetch mp.toNat (some d) c).records ++ more, c2)
          from by simp [collectResults, hd, hc2]]
      simp [hrec, hmore]

/-- C10: `main` writes the combined output only when the aggregated result
list is non-empty: when every target yields zero records nothing is written
(first conjunct), and whenever a file is written its record list is
non-empty (second conjunct). -/
theorem main_writes_only_nonempty (w : MainWorld) (args : List String) :
    ((∀ t d c2, t ∈ mainTargets (mainConfig w args) →
        extract_doi_from_arg t = some d →
        (scrape_all w.services w.fetch (mainConfig w args).max_pages.toNat
          (some d) c2).records = []) →
      runMain w args = none) ∧
    (∀ p rs, runMain w args = some (p, rs) → rs ≠ []) := by
  constructor
  · intro h
    have hres : mainAllResults w args = [] :=
      collectResults_empty w (mainConfig w args).max_pages
        (mainTargets (mainConfig w args)) [] h
    unfold runMain
    by_cases hd : args.headD "" = "--debug-list"
    · rw [if_pos hd]
    · rw [if_neg hd]
      show (if mainAllResults w args = [] then none
        else some (outPathOf (mainConfig w args), mainAllResults w args)) = none
      rw [if_pos hres]
  · intro p rs hsome
    unfold runMain at hsome
    by_cases hd : args.headD "" = "--debug-list"
    · rw [if_pos hd] at hsome
      exact absurd hsome (by simp)
    · rw [if_neg hd] at hsome
      have hsome2 : (if mainAllResults w args = [] then none
          else some (outPathOf (mainConfig w args), mainAllResults w args))
          = some (p, rs) := hsome
      by_cases hres : mainAllResults w args = []
      · rw [if_pos hres] at hsome2
        exact absurd hsome2 (by simp)
      · rw [if_neg hres] at hsome2
        injection hsome2 with hpair
        have hrs2 : mainAllResults w args = rs := congrArg Prod.snd hpair
        intro hrs
        apply hres
        rw [hrs2]
        exact hrs

/-- Witness for C10: with every page fetch failing and no CLI arguments,
the default target scrapes to zero records and no file is written. -/
theorem main_writes_only_nonempty_witness : runMain failWorld [] = none :=
  (main_writes_only_nonempty failWorld []).1 (by
    intro t d c2 ht hd
    rw [show mainTargets (mainConfig failWorld []) = [DEFAULT_DOI] from rfl] at ht
    have ht2 : t = DEFAULT_DOI := List.mem_singleton.mp ht
    subst ht2
    rw [show extract_doi_from_arg DEFAULT_DOI = some DEFAULT_DOI from by decide] at hd
    injection hd with hd2
    subst hd2
    rfl)
